import Mathlib

/-!
Verification of the recommender in `a2.py` (class `Recommender`,
function `find_similar_curator`).

The relational store is embedded as a record of the relations the code
queries (`PopularItems`, `Review`, `DefinitiveRatings`,
`Purchase ⋈ LineItem`, `LineItem`, `Item`, the `q3` curator view) plus the
`definitiveratings_cid_fkey` constraint flag.  SQL row order inside a
query result is unspecified; the embedding fixes deterministic choices
(input order of the base lists, stable insertion sort for `ORDER BY`).
`rating` values and SQL averages are embedded as `ℚ` (the code divides a
cast sum by a count; exactness is not at issue in any claim).
-/

/-- Modelled from the spec: `RatingsTable` lives in `ratings.py`, which is
not part of the sources.  Per the spec it maps a person ID to a fixed
row vector with one `Option` score slot per known item (shared item
order), and `get_all_ratings` yields an "absent" sentinel (`none`) for a
person never written.  Capacity limits of the constructor are modelled
as auto-extension, which the spec leaves open. -/
structure RatingsTable where
  rows : Int → Option (List (Option ℚ))

def RatingsTable.get_all_ratings (t : RatingsTable) (p : Int) : Option (List (Option ℚ)) :=
  t.rows p

/-- The loop body of `find_similar_curator` (lines 350-353): positional
pass over the two row vectors, accumulating `diff_sum` and `num_rtings`
over the slots where both scores are present. -/
def diffStats : List (Option ℚ) → List (Option ℚ) → ℚ × ℕ
  | a :: xs, b :: ys =>
    let sn := diffStats xs ys
    match a, b with
    | some x, some y => (sn.1 + |x - y|, sn.2 + 1)
    | _, _ => sn
  | _, _ => (0, 0)

/-- The quotient `diff_sum / num_rtings` when the overlap is non-empty (line 355-356),
`none` when the curator is skipped (`num_rtings == 0`). -/
def meanDiff (cur cust : List (Option ℚ)) : Option ℚ :=
  let sn := diffStats cur cust
  if sn.2 = 0 then none else some (sn.1 / (sn.2 : ℚ))

/-- Mean absolute rating difference of curator `c` against customer
`cust` in table `t` (the quantity the loop of `find_similar_curator`
computes for `c`). -/
def mdiffOf (t : RatingsTable) (cust c : Int) : Option ℚ :=
  meanDiff ((t.rows c).getD []) ((t.rows cust).getD [])

/-- Number of item positions where both `c` and `cust` have a score. -/
def overlapCount (t : RatingsTable) (cust c : Int) : ℕ :=
  (diffStats ((t.rows c).getD []) ((t.rows cust).getD [])).2

/-- One iteration of the `for curator in curator_ids` loop (lines
345-359): the accumulator couples `min_curator` with `min_diff`
(`none` stands for the initial `min_curator = None, min_diff = inf`
pair; the two variables are only ever updated together). -/
def fscStep (t : RatingsTable) (custRow : List (Option ℚ)) (acc : Option (Int × ℚ)) (c : Int) :
    Option (Int × ℚ) :=
  match meanDiff ((t.rows c).getD []) custRow with
  | none => acc
  | some d =>
    match acc with
    | none => some (c, d)
    | some md => if d < md.2 then some (c, d) else some md

/-- Function `find_similar_curator` (lines 322-361). -/
def find_similar_curator (t : RatingsTable) (curator_ids : List Int) (cust_id : Int) :
    Option Int :=
  let custRow := (t.rows cust_id).getD []
  (curator_ids.foldl (fscStep t custRow) none).map Prod.fst

/-- The database state visible to the `Recommender`. -/
structure DB where
  /-- `PopularItems(IID)` snapshot table. -/
  popularItems : List Int
  /-- `Review(CID, IID, rating)`. -/
  review : List (Int × Int × ℚ)
  /-- `DefinitiveRatings(CID, IID, rating)` snapshot table. -/
  definitiveRatings : List (Int × Int × ℚ)
  /-- Rows of `Purchase NATURAL JOIN LineItem` projected to `(CID, IID)`
  (the only use the code makes of that join, view `custIID`). -/
  purchase : List (Int × Int)
  /-- `LineItem` projected to `(IID, quantity)` (used by `repopulate`). -/
  lineItem : List (Int × Int)
  /-- `Item` projected to `(IID, category)`. -/
  itemCat : List (Int × Int)
  /-- Modelled from the spec: `q3` is a view from Part 1 of the
  assignment, absent from the sources; per the spec it lists the curator
  customer IDs. -/
  q3 : List Int
  /-- Whether constraint `definitiveratings_cid_fkey` currently exists. -/
  cidFkey : Bool

/-- Keep the first occurrence of each element (deterministic stand-in
for SQL `DISTINCT` / `GROUP BY` key order). -/
def firstDedup {α : Type} [DecidableEq α] : List α → List α
  | [] => []
  | x :: xs => x :: (firstDedup xs).filter (fun y => decide (y ≠ x))

/-- Order `ORDER BY average DESC` on `(IID, average)` rows. -/
def scoreDescR : (Int × ℚ) → (Int × ℚ) → Prop := fun p q => q.2 ≤ p.2

instance : DecidableRel scoreDescR := fun p q => inferInstanceAs (Decidable (q.2 ≤ p.2))

instance : IsTotal (Int × ℚ) scoreDescR := ⟨fun a b => le_total b.2 a.2⟩

instance : IsTrans (Int × ℚ) scoreDescR := ⟨fun _ _ _ h1 h2 => le_trans h2 h1⟩

/-- Order `ORDER BY average DESC, IID ASC` (line 131, first call site). -/
def avgIdR : (Int × ℚ) → (Int × ℚ) → Prop :=
  fun p q => q.2 < p.2 ∨ (p.2 = q.2 ∧ p.1 ≤ q.1)

instance : DecidableRel avgIdR := fun p q =>
  inferInstanceAs (Decidable (q.2 < p.2 ∨ (p.2 = q.2 ∧ p.1 ≤ q.1)))

instance : IsTotal (Int × ℚ) avgIdR :=
  ⟨fun a b => by
    rcases lt_trichotomy a.2 b.2 with h | h | h
    · exact Or.inr (Or.inl h)
    · rcases le_total a.1 b.1 with h1 | h1
      · exact Or.inl (Or.inr ⟨h, h1⟩)
      · exact Or.inr (Or.inr ⟨h.symm, h1⟩)
    · exact Or.inl (Or.inl h)⟩

instance : IsTrans (Int × ℚ) avgIdR :=
  ⟨fun a b c hab hbc => by
    rcases hab with h1 | ⟨h1, h1i⟩ <;> rcases hbc with h2 | ⟨h2, h2i⟩
    · exact Or.inl (lt_trans h2 h1)
    · exact Or.inl (h2 ▸ h1)
    · exact Or.inl (h1 ▸ h2)
    · exact Or.inr ⟨h1.trans h2, le_trans h1i h2i⟩⟩

/-- Order `ORDER BY rating DESC, IID` (line 241, second call site). -/
def ratingIdR : (Int × ℚ) → (Int × ℚ) → Prop :=
  fun p q => q.2 < p.2 ∨ (p.2 = q.2 ∧ p.1 ≤ q.1)

instance : DecidableRel ratingIdR := fun p q =>
  inferInstanceAs (Decidable (q.2 < p.2 ∨ (p.2 = q.2 ∧ p.1 ≤ q.1)))

instance : IsTotal (Int × ℚ) ratingIdR :=
  ⟨fun a b => by
    rcases lt_trichotomy a.2 b.2 with h | h | h
    · exact Or.inr (Or.inl h)
    · rcases le_total a.1 b.1 with h1 | h1
      · exact Or.inl (Or.inr ⟨h, h1⟩)
      · exact Or.inr (Or.inr ⟨h.symm, h1⟩)
    · exact Or.inl (Or.inl h)⟩

instance : IsTrans (Int × ℚ) ratingIdR :=
  ⟨fun a b c hab hbc => by
    rcases hab with h1 | ⟨h1, h1i⟩ <;> rcases hbc with h2 | ⟨h2, h2i⟩
    · exact Or.inl (lt_trans h2 h1)
    · exact Or.inl (h2 ▸ h1)
    · exact Or.inl (h1 ▸ h2)
    · exact Or.inr ⟨h1.trans h2, le_trans h1i h2i⟩⟩

/-- All `Review` ratings on item `i` (any customer; this is what the
`PopularItems NATURAL JOIN Review` in line 107 ranges over). -/
def reviewsOn (db : DB) (i : Int) : List ℚ :=
  db.review.filterMap (fun r => if r.2.1 = i then some r.2.2 else none)

/-- View `ratingAverage` (lines 105-108): per popular item with at least
one review, the mean of all its `Review` ratings, `ORDER BY average
DESC`.  Items with no review are dropped by the natural join. -/
def ratingAverageRows (db : DB) : List (Int × ℚ) :=
  List.insertionSort scoreDescR
    (db.popularItems.filterMap (fun i =>
      let rs := reviewsOn db i
      if rs.isEmpty then none else some (i, rs.sum / (rs.length : ℚ))))

/-- SQL `MIN` over a column: `none` is the `NULL` of an empty input. -/
def listMin? : List ℚ → Option ℚ
  | [] => none
  | x :: xs =>
    match listMin? xs with
    | none => some x
    | some m => some (min x m)

/-- Predicate `average >= min_a` with SQL `NULL` semantics: when `min_a` is `NULL`
the comparison never holds (call site 1, line 121). -/
def qualA (m : Option ℚ) (p : Int × ℚ) : Bool :=
  match m with
  | none => false
  | some v => decide (v ≤ p.2)

/-- Query `SELECT COUNT(IID) FROM ratingAverage WHERE average >= min_a`
(lines 120-123). -/
def countGeA (ra : List (Int × ℚ)) (m : Option ℚ) : ℕ :=
  (ra.filter (qualA m)).length

/-- Top-K selection of `recommend_generic` (lines 115-133): `min_a` is
the minimum score among the first `k` rows, `n` counts rows scoring at
least `min_a`; if `n ≤ k` take the first `k` rows as listed, otherwise
re-sort by `(average DESC, IID ASC)` and take `k`. -/
def topkGeneric (k : ℕ) (ra : List (Int × ℚ)) : List Int :=
  let minA := listMin? ((ra.take k).map (fun p => p.2))
  let n := countGeA ra minA
  if n ≤ k then (ra.take k).map (fun p => p.1)
  else ((List.insertionSort avgIdR ra).take k).map (fun p => p.1)

/-- Predicate `rating >= min_r` with SQL `NULL` semantics (call site 2, line 234). -/
def qualB (m : Option ℚ) (p : Int × ℚ) : Bool :=
  match m with
  | none => false
  | some v => decide (v ≤ p.2)

/-- Query `SELECT COUNT(IID) FROM itemLeft WHERE rating >= min_r`
(lines 233-235). -/
def countGeB (il : List (Int × ℚ)) (m : Option ℚ) : ℕ :=
  (il.filter (qualB m)).length

/-- Top-K selection of `recommend` (lines 230-242), transliterated
independently of `topkGeneric`: `min_r` over the first `k` rows of
`itemLeft`, count `n`, first `k` rows if `n ≤ k`, else `(rating DESC,
IID)` re-sort and take `k`. -/
def topkRecommendSel (k : ℕ) (il : List (Int × ℚ)) : List Int :=
  let minR := listMin? ((il.take k).map (fun p => p.2))
  let n := countGeB il minR
  if n ≤ k then (il.take k).map (fun p => p.1)
  else ((List.insertionSort ratingIdR il).take k).map (fun p => p.1)

/-- Line 111 compares the psycopg2 cursor object `check` with the list
`[]`; a cursor never equals a list, so the comparison is identically
`False`. -/
def cursorEqEmptyList : Bool := false

/-- Line 201 tests `cust_ratings is None` where `cust_ratings` is the
cursor object; the test is identically `False`. -/
def cursorIsNone : Bool := false

/-- Result value of a successful `Recommender.recommend_generic(k)`
(lines 96-139). -/
def recommend_genericPure (db : DB) (k : ℕ) : List Int :=
  if db.popularItems.length ≤ k then db.popularItems
  else
    let ra := ratingAverageRows db
    if cursorEqEmptyList then []
    else topkGeneric k ra

/-- View `custRating` (lines 194-197): the customer's reviews on
popular items. -/
def custRatingRows (db : DB) (cust : Int) : List (Int × Int × ℚ) :=
  db.review.filter (fun r => decide (r.1 = cust) && decide (r.2.1 ∈ db.popularItems))

/-- The `set_rating` calls of `recommend` in execution order: first the
`custRating` rows (lines 205-206), then all of `DefinitiveRatings`
(lines 208-210). -/
def tableWrites (db : DB) (cust : Int) : List (Int × Int × ℚ) :=
  custRatingRows db cust ++ db.definitiveRatings

/-- Last `set_rating` value for `(p, i)` (later writes overwrite). -/
def lastVal (ws : List (Int × Int × ℚ)) (p i : Int) : Option ℚ :=
  ws.foldl (fun acc w => if w.1 = p ∧ w.2.1 = i then some w.2.2 else acc) none

/-- The `RatingsTable` that `recommend` fills (lines 192-210); item
slots in first-write order, a row only for persons actually written. -/
def buildTable (db : DB) (cust : Int) : RatingsTable :=
  let ws := tableWrites db cust
  let items := firstDedup (ws.map (fun w => w.2.1))
  let persons := firstDedup (ws.map (fun w => w.1))
  ⟨fun p => if p ∈ persons then some (items.map (fun i => lastVal ws p i)) else none⟩

/-- Query `SELECT DISTINCT CID FROM DefinitiveRatings` (lines 212-215). -/
def curatorsOf (db : DB) : List Int :=
  firstDedup (db.definitiveRatings.map (fun r => r.1))

/-- The curator chosen in line 217. -/
def curatorOf (db : DB) (cust : Int) : Option Int :=
  find_similar_curator (buildTable db cust) (curatorsOf db) cust

/-- View `custIID` (lines 219-221): items the customer has bought. -/
def purchasedBy (db : DB) (cust : Int) : List Int :=
  db.purchase.filterMap (fun p => if p.1 = cust then some p.2 else none)

/-- View `itemLeft` (lines 223-228): the chosen curator's distinct
`(IID, rating)` pairs on items the customer has not bought, `ORDER BY
rating DESC`.  When no curator was found the `CID = NULL` comparison
matches no row. -/
def itemLeftRows (db : DB) (cust : Int) : List (Int × ℚ) :=
  match curatorOf db cust with
  | none => []
  | some cu =>
    List.insertionSort scoreDescR
      (firstDedup
        (db.definitiveRatings.filterMap (fun r =>
          if r.1 = cu ∧ ¬r.2.1 ∈ purchasedBy db cust then some (r.2.1, r.2.2) else none)))

/-- Result value of a successful `Recommender.recommend(cust, k)`
(lines 143-265); `res` is the contents of view `result`
(lines 236-242). -/
def recommendPure (db : DB) (cust : Int) (k : ℕ) : List Int :=
  let cu := curatorOf db cust
  let il := itemLeftRows db cust
  let res := topkRecommendSel k il
  if cu = none ∨ res.length = 0 then recommend_genericPure db k
  else res

/-- Size of the candidate pool `recommend_generic` selects from: the
whole `PopularItems` table in the small-pool branch, the rated popular
items (`ratingAverage`) otherwise. -/
def genericPool (db : DB) (k : ℕ) : ℕ :=
  if db.popularItems.length ≤ k then db.popularItems.length
  else (ratingAverageRows db).length

/-- Size of the candidate pool `recommend` selects from: the generic
pool on the fallback path, the curator's `itemLeft` rows otherwise. -/
def recommendPool (db : DB) (cust : Int) (k : ℕ) : ℕ :=
  if curatorOf db cust = none ∨ (topkRecommendSel k (itemLeftRows db cust)).length = 0
  then genericPool db k
  else (itemLeftRows db cust).length

/-- Total quantity of item `i` over `LineItem` (view `totalNumber`,
lines 288-290). -/
def totalQty (db : DB) (i : Int) : Int :=
  (db.lineItem.filterMap (fun p => if p.1 = i then some p.2 else none)).sum

/-- Order `quantity DESC` on `(IID, category, quantity)` rows. -/
def qtyDescR : (Int × Int × Int) → (Int × Int × Int) → Prop := fun p q => q.2.2 ≤ p.2.2

instance : DecidableRel qtyDescR := fun p q => inferInstanceAs (Decidable (q.2.2 ≤ p.2.2))

instance : IsTotal (Int × Int × Int) qtyDescR := ⟨fun a b => le_total b.2.2 a.2.2⟩

instance : IsTrans (Int × Int × Int) qtyDescR := ⟨fun _ _ _ h1 h2 => le_trans h2 h1⟩

/-- View `popular` (lines 292-296): per category, the two items of
`totalNumber NATURAL JOIN Item` with the highest summed quantity
(`row_number` tie order is unspecified in SQL; the embedding fixes the
stable order of `totalNumber`, which is `ORDER BY IID`). -/
def popularRows (db : DB) : List Int :=
  let tn := List.insertionSort (fun a b => a ≤ b) (firstDedup (db.lineItem.map (fun p => p.1)))
  let rows := tn.filterMap (fun i => (db.itemCat.lookup i).map (fun c => (i, c, totalQty db i)))
  let cats := firstDedup (rows.map (fun r => r.2.1))
  (cats.map (fun c =>
    ((List.insertionSort qtyDescR (rows.filter (fun r => decide (r.2.1 = c)))).take 2).map
      (fun r => r.1))).flatten

/-- Method `Recommender.repopulate` (lines 269-317).  The run commits only on
success; a raised `pg.Error` leaves the transaction uncommitted, so the
failing run is modelled as leaving the store unchanged.  The single
failure point modelled is the `ALTER TABLE ... DROP CONSTRAINT
"definitiveratings_cid_fkey"` in lines 304-305, which raises exactly
when the constraint does not exist.  On success the snapshot tables are
replaced (`definitive` is `(q3 NATURAL JOIN Review) NATURAL JOIN
PopularItems`, lines 300-302) and the constraint is gone. -/
def repopulate (db : DB) : Int × DB :=
  if db.cidFkey then
    let pop := popularRows db
    let defs := db.review.filter (fun r => decide (r.1 ∈ db.q3) && decide (r.2.1 ∈ pop))
    (0, { db with popularItems := pop, definitiveRatings := defs, cidFkey := false })
  else (-1, db)

/-! ## Effect model for the two public entry points

Each `cur.execute` is one observable step: it can raise `pg.Error`
(driven by a failure oracle indexed by a running query counter) and it
can create or drop a view.  A raised error aborts the remaining body;
the `try/except pg.Error` wrapper of each method turns it into the
`None` sentinel.  Within one connection the views created by aborted
statements stay visible (nothing in the error path drops them). -/

/-- Which auxiliary views currently exist. -/
structure ViewSet where
  ratingAverage : Bool
  custRating : Bool
  custIID : Bool
  itemLeft : Bool
  result : Bool
deriving DecidableEq

/-- Execution state: the committed and in-transaction view states, the
query counter and the failure oracle (`fail n = true` means the `n`-th
executed query raises). -/
structure ExecSt where
  /-- View state as of the last `commit` — the only state a request
  issued after this transaction has ended can observe: Postgres
  discards the uncommitted work of an aborted transaction on rollback,
  and neither `recommend` nor `recommend_generic` ever commits (the
  sole `db_conn.commit()` in `a2.py` is in `repopulate`, line 313). -/
  committed : ViewSet
  /-- In-transaction view state: what statements of the still-open
  transaction itself see (uncommitted). -/
  views : ViewSet
  qn : ℕ
  fail : ℕ → Bool

/-- State-and-error computation over `ExecSt`; the state survives a
raised error (`Except.error` is `pg.Error`). -/
def M (α : Type) : Type := ExecSt → Except Unit α × ExecSt

def pureM {α : Type} (a : α) : M α := fun s => (Except.ok a, s)

def bindM {α β : Type} (m : M α) (f : α → M β) : M β := fun s =>
  match m s with
  | (Except.ok a, s1) => f a s1
  | (Except.error e, s1) => (Except.error e, s1)

instance : Monad M where
  pure := pureM
  bind := bindM

/-- One `cur.execute`: consult the oracle, then apply the view effect
and advance the counter. -/
def execQ (eff : ViewSet → ViewSet) : M Unit := fun s =>
  if s.fail s.qn then (Except.error (), { s with qn := s.qn + 1 })
  else (Except.ok (),
    { committed := s.committed, views := eff s.views, qn := s.qn + 1, fail := s.fail })

/-- Body of `recommend_generic` inside the `try` (lines 96-139); view
effects and query order as in the source, result values given by the
pure query semantics above.  The two `SELECT IID ... LIMIT k` variants
of lines 126-133 are a single query slot whose value is
`topkGeneric`. -/
def recommend_genericBody (db : DB) (k : ℕ) : M (List Int) := do
  execQ id                                                -- COUNT(IID) FROM PopularItems
  if db.popularItems.length ≤ k then do
    execQ id                                              -- SELECT IID FROM PopularItems
    execQ (fun v => { v with ratingAverage := false })    -- DROP VIEW IF EXISTS ratingAverage
    pure db.popularItems
  else do
    execQ (fun v => { v with ratingAverage := true })     -- CREATE VIEW ratingAverage
    execQ id                                              -- SELECT * FROM ratingAverage
    if cursorEqEmptyList then do                          -- check == [] : identically False
      execQ (fun v => { v with ratingAverage := false })
      pure []
    else do
      execQ id                                            -- SELECT MIN(average) ...
      execQ id                                            -- COUNT(IID) ... WHERE average >= min_a
      execQ id                                            -- SELECT IID ... LIMIT k
      execQ (fun v => { v with ratingAverage := false })  -- DROP VIEW IF EXISTS ratingAverage
      pure (topkGeneric k (ratingAverageRows db))

/-- Wrapper of `recommend_generic`: its `try/except pg.Error: return None`
wrapper: `none` is the "no result" sentinel. -/
def recommend_genericE (db : DB) (k : ℕ) (s : ExecSt) : Option (List Int) × ExecSt :=
  match recommend_genericBody db k s with
  | (Except.ok l, s1) => (some l, s1)
  | (Except.error _, s1) => (none, s1)

/-- The nested `self.recommend_generic(k)` call on the fallback path
(lines 204 and 254): its own `try/except` already caught any error, so
the call itself never raises. -/
def callGenericE (db : DB) (k : ℕ) : M (Option (List Int)) := fun s =>
  let r := recommend_genericE db k s
  (Except.ok r.1, r.2)

/-- Body of `recommend` inside the `try` (lines 181-265). -/
def recommendBody (db : DB) (cust : Int) (k : ℕ) : M (Option (List Int)) := do
  execQ id                                               -- COUNT(DISTINCT CID), COUNT(DISTINCT IID)
  execQ (fun v => { v with custRating := true })         -- CREATE VIEW custRating
  execQ id                                               -- SELECT * FROM custRating
  if cursorIsNone then do                                -- cust_ratings is None : identically False
    execQ (fun v => { v with custRating := false })
    callGenericE db k
  else do
    execQ id                                             -- SELECT * FROM DefinitiveRatings
    execQ id                                             -- SELECT DISTINCT CID FROM DefinitiveRatings
    execQ (fun v => { v with custIID := true })          -- CREATE VIEW custIID
    execQ (fun v => { v with itemLeft := true })         -- CREATE VIEW itemLeft
    execQ id                                             -- SELECT MIN(rating) ...
    execQ id                                             -- COUNT(IID) FROM itemLeft WHERE rating >= min_r
    execQ (fun v => { v with result := true })           -- CREATE VIEW result (either branch)
    execQ id                                             -- SELECT COUNT(IID) FROM result
    let res := topkRecommendSel k (itemLeftRows db cust)
    if curatorOf db cust = none ∨ res.length = 0 then do
      execQ (fun v => { v with result := false })        -- DROP VIEW IF EXISTS result
      execQ (fun v => { v with itemLeft := false })      -- DROP VIEW IF EXISTS itemLeft
      execQ (fun v => { v with custIID := false })       -- DROP VIEW IF EXISTS custIID
      execQ (fun v => { v with custRating := false })    -- DROP VIEW IF EXISTS custRating
      callGenericE db k
    else do
      execQ id                                           -- SELECT IID FROM result
      execQ (fun v => { v with result := false })
      execQ (fun v => { v with itemLeft := false })
      execQ (fun v => { v with custIID := false })
      execQ (fun v => { v with custRating := false })
      pure (some res)

/-- Wrapper of `recommend` with its `try/except pg.Error: return None` clause. -/
def recommendE (db : DB) (cust : Int) (k : ℕ) (s : ExecSt) : Option (List Int) × ExecSt :=
  match recommendBody db cust k s with
  | (Except.ok v, s1) => (v, s1)
  | (Except.error _, s1) => (none, s1)

/-- A fresh session: no auxiliary views, counter at zero, no failures. -/
def noFailSt : ExecSt :=
  ⟨⟨false, false, false, false, false⟩, ⟨false, false, false, false, false⟩, 0, fun _ => false⟩

/-- The view state a later request observes once this call's
transaction has ended: neither `recommend` nor `recommend_generic`
contains a `commit`, so whether the call succeeded or raised, its
uncommitted view work is discarded when the transaction is rolled back
and only the committed component remains visible. -/
def laterObservedViews (s : ExecSt) : ViewSet := s.committed

/-- A computation that never changes the committed component — the
state observable by later requests. -/
def PresM {α : Type} (m : M α) : Prop :=
  ∀ s : ExecSt, ((m s).2).committed = s.committed

/-! ## The similarity matcher: first strict minimum -/

/-- Combine two optional `(curator, diff)` candidates, the left one
being the earlier: the right wins only with a strictly smaller diff. -/
def combineMin (a b : Option (Int × ℚ)) : Option (Int × ℚ) :=
  match a, b with
  | none, r => r
  | some x, none => some x
  | some x, some y => if y.2 < x.2 then some y else some x

/-- Leftmost minimiser (earlier candidate wins ties) of `f` over a
list, among elements where `f` is defined. -/
def firstMinO (f : Int → Option ℚ) : List Int → Option (Int × ℚ)
  | [] => none
  | c :: cs =>
    match f c, firstMinO f cs with
    | none, r => r
    | some d, none => some (c, d)
    | some d, some cd => if cd.2 < d then some cd else some (c, d)

/-- Witness table for the spec's matcher example: customer `5` rated the
two popular items `(5, 3)`, curator `1` rated them `(5, 3)` (mean
difference `0`), curator `2` rated them `(1, 1)` (mean difference `3`). -/
def tEx : RatingsTable :=
  ⟨fun p =>
    if p = 5 then some [some 5, some 3]
    else if p = 1 then some [some 5, some 3]
    else if p = 2 then some [some 1, some 1]
    else none⟩

/-- Table in which curator `3` shares no rated item position with
customer `5`. -/
def tEx2 : RatingsTable :=
  ⟨fun p =>
    if p = 5 then some [some 5, none]
    else if p = 3 then some [none, some 2]
    else none⟩

/-- One popular item, no reviews, no curators: both entry points
succeed and return `[10]`. -/
def dbSmall : DB := ⟨[10], [], [], [], [], [], [], false⟩

/-- Two popular items, nothing else. -/
def dbPop2 : DB := ⟨[10, 20], [], [], [], [], [], [], false⟩

/-- No auxiliary views. -/
def vAllFalse : ViewSet := ⟨false, false, false, false, false⟩

/-! ## The generic ranking: whose ratings enter the mean? -/

/-- Claim-version ranking, following the spec text for C5: each Popular
Item's mean rating is the average of the curator ratings on it (the
`DefinitiveRatings` snapshot), zero-rating items excluded, then the
same Top-K selection.  This is what the code would compute if line 107
joined `DefinitiveRatings` instead of `Review`. -/
def curatorMeanRows (db : DB) : List (Int × ℚ) :=
  List.insertionSort scoreDescR
    (db.popularItems.filterMap (fun i =>
      let rs := db.definitiveRatings.filterMap
        (fun r => if r.2.1 = i then some r.2.2 else none)
      if rs.isEmpty then none else some (i, rs.sum / (rs.length : ℚ))))

/-- Claim-version of `recommend_generic`'s large-pool branch for C5. -/
def specGenericTopK (db : DB) (k : ℕ) : List Int :=
  topkGeneric k (curatorMeanRows db)

/-- Store separating the two readings of "mean rating": curator `7`
(the only curator) rates items `1, 2, 3` as `5, 4, 3`; plain customer
`9` also reviewed item `1` with a `1`.  Over all reviews item `1`
averages `3`, over curator ratings it averages `5`. -/
def dbC5 : DB :=
  ⟨[1, 2, 3],
   [(7, 1, 5), (7, 2, 4), (7, 3, 3), (9, 1, 1)],
   [(7, 1, 5), (7, 2, 4), (7, 3, 3)],
   [], [], [], [7], false⟩

/-! ## Snapshot refresh and the foreign-key constraint -/

/-- A store on which `repopulate` succeeds: the
`definitiveratings_cid_fkey` constraint exists, one line item sold for
item `1` of category `9`, curator `7` reviewed it. -/
def dbC10 : DB := ⟨[], [(7, 1, 5)], [], [], [(1, 3)], [(1, 9)], [7], true⟩

@[simp] theorem bind_eqM {α β : Type} (m : M α) (f : α → M β) :
    (m >>= f : M β) = bindM m f := rfl

@[simp] theorem pure_eqM {α : Type} (a : α) : (pure a : M α) = pureM a := rfl

theorem combineMin_none_right (a : Option (Int × ℚ)) : combineMin a none = a := by
  cases a <;> rfl

theorem combineMin_eq_none {a b : Option (Int × ℚ)} :
    combineMin a b = none ↔ a = none ∧ b = none := by
  rcases a with _ | x <;> rcases b with _ | y <;> simp only [combineMin]
  · simp
  · simp
  · simp
  · split_ifs <;> simp

theorem combineMin_assoc (a b c : Option (Int × ℚ)) :
    combineMin (combineMin a b) c = combineMin a (combineMin b c) := by
  rcases a with _ | x <;> rcases b with _ | y <;> rcases c with _ | z
  · rfl
  · rfl
  · rfl
  · rfl
  · rfl
  · rfl
  · rw [combineMin_none_right, combineMin_none_right]
  · by_cases h1 : y.2 < x.2 <;> by_cases h2 : z.2 < y.2
    · simp [combineMin, h1, h2, lt_trans h2 h1]
    · simp [combineMin, h1, h2]
    · simp [combineMin, h1, h2]
    · simp [combineMin, h1, h2, not_lt.mpr (le_trans (not_lt.mp h1) (not_lt.mp h2))]

theorem fscStep_eq (t : RatingsTable) (row : List (Option ℚ)) (acc : Option (Int × ℚ))
    (c : Int) :
    fscStep t row acc c
      = combineMin acc ((meanDiff ((t.rows c).getD []) row).map (fun d => (c, d))) := by
  rcases hm : meanDiff ((t.rows c).getD []) row with _ | d <;> rcases acc with _ | md <;>
    simp [fscStep, combineMin, hm]

theorem firstMinO_cons (f : Int → Option ℚ) (c : Int) (cs : List Int) :
    firstMinO f (c :: cs)
      = combineMin ((f c).map (fun d => (c, d))) (firstMinO f cs) := by
  rcases hfc : f c with _ | d <;> rcases hrest : firstMinO f cs with _ | cd <;>
    simp [firstMinO, combineMin, hfc, hrest]

theorem foldl_fscStep (t : RatingsTable) (row : List (Option ℚ)) (ids : List Int) :
    ∀ acc, ids.foldl (fscStep t row) acc
      = combineMin acc (firstMinO (fun c => meanDiff ((t.rows c).getD []) row) ids) := by
  induction ids with
  | nil => intro acc; simp [firstMinO, combineMin_none_right]
  | cons c cs ih =>
    intro acc
    rw [List.foldl_cons, ih, fscStep_eq, combineMin_assoc, firstMinO_cons]

theorem fsc_eq (t : RatingsTable) (ids : List Int) (cust : Int) :
    find_similar_curator t ids cust
      = (firstMinO (fun c => mdiffOf t cust c) ids).map Prod.fst := by
  show (List.foldl (fscStep t ((t.rows cust).getD [])) none ids).map Prod.fst = _
  rw [foldl_fscStep]
  rfl

theorem firstMinO_eq_none {f : Int → Option ℚ} :
    ∀ {l : List Int}, firstMinO f l = none ↔ ∀ c ∈ l, f c = none := by
  intro l
  induction l with
  | nil => simp [firstMinO]
  | cons c cs ih =>
    rw [firstMinO_cons, combineMin_eq_none, Option.map_eq_none', ih]
    simp [List.forall_mem_cons]

theorem firstMinO_some {f : Int → Option ℚ} :
    ∀ {l : List Int} {c : Int} {d : ℚ}, firstMinO f l = some (c, d) →
      c ∈ l ∧ f c = some d
        ∧ (∀ c2 ∈ l, ∀ d2, f c2 = some d2 → d ≤ d2)
        ∧ ∃ pre post, l = pre ++ c :: post
            ∧ ∀ c2 ∈ pre, ∀ d2, f c2 = some d2 → d < d2 := by
  intro l
  induction l with
  | nil => intro c d h; exact absurd h (by simp [firstMinO])
  | cons c0 cs ih =>
    intro c d h
    rcases hfc : f c0 with _ | d0 <;> rcases hrest : firstMinO f cs with _ | ⟨c1, d1⟩ <;>
      simp only [firstMinO, hfc, hrest] at h
    · exact absurd h (by simp)
    · simp only [Option.some.injEq, Prod.mk.injEq] at h
      obtain ⟨hc, hd⟩ := h
      subst hc; subst hd
      obtain ⟨hmem, hfc1, hmin, pre, post, hsplit, hstrict⟩ := ih hrest
      refine ⟨List.mem_cons_of_mem _ hmem, hfc1, ?_, c0 :: pre, post, by rw [hsplit]; rfl, ?_⟩
      · intro c2 hc2 d2 hf2
        rcases List.mem_cons.mp hc2 with h2 | h2
        · rw [h2, hfc] at hf2; exact absurd hf2 (by simp)
        · exact hmin c2 h2 d2 hf2
      · intro c2 hc2 d2 hf2
        rcases List.mem_cons.mp hc2 with h2 | h2
        · rw [h2, hfc] at hf2; exact absurd hf2 (by simp)
        · exact hstrict c2 h2 d2 hf2
    · simp only [Option.some.injEq, Prod.mk.injEq] at h
      obtain ⟨hc, hd⟩ := h
      subst hc; subst hd
      have hnone := firstMinO_eq_none.mp hrest
      refine ⟨List.mem_cons_self _ _, hfc, ?_, [], cs, rfl, by intro c2 hc2; simp at hc2⟩
      intro c2 hc2 d2 hf2
      rcases List.mem_cons.mp hc2 with h2 | h2
      · rw [h2, hfc] at hf2
        simp only [Option.some.injEq] at hf2
        exact le_of_eq hf2
      · rw [hnone c2 h2] at hf2; exact absurd hf2 (by simp)
    · split_ifs at h with hlt
      · simp only [Option.some.injEq, Prod.mk.injEq] at h
        obtain ⟨hc, hd⟩ := h
        subst hc; subst hd
        obtain ⟨hmem, hfc1, hmin, pre, post, hsplit, hstrict⟩ := ih hrest
        refine ⟨List.mem_cons_of_mem _ hmem, hfc1, ?_, c0 :: pre, post, by rw [hsplit]; rfl, ?_⟩
        · intro c2 hc2 d2 hf2
          rcases List.mem_cons.mp hc2 with h2 | h2
          · rw [h2, hfc] at hf2
            simp only [Option.some.injEq] at hf2
            exact le_of_lt (hf2 ▸ hlt)
          · exact hmin c2 h2 d2 hf2
        · intro c2 hc2 d2 hf2
          rcases List.mem_cons.mp hc2 with h2 | h2
          · rw [h2, hfc] at hf2
            simp only [Option.some.injEq] at hf2
            exact hf2 ▸ hlt
          · exact hstrict c2 h2 d2 hf2
      · simp only [Option.some.injEq, Prod.mk.injEq] at h
        obtain ⟨hc, hd⟩ := h
        subst hc; subst hd
        obtain ⟨hmem, hfc1, hmin, _⟩ := ih hrest
        refine ⟨List.mem_cons_self _ _, hfc, ?_, [], cs, rfl, by intro c2 hc2; simp at hc2⟩
        intro c2 hc2 d2 hf2
        rcases List.mem_cons.mp hc2 with h2 | h2
        · rw [h2, hfc] at hf2
          simp only [Option.some.injEq] at hf2
          exact le_of_eq hf2
        · exact le_trans (not_lt.mp hlt) (hmin c2 h2 d2 hf2)

theorem mdiff_none_iff (t : RatingsTable) (cust c : Int) :
    mdiffOf t cust c = none ↔ overlapCount t cust c = 0 := by
  by_cases h : (diffStats ((t.rows c).getD []) ((t.rows cust).getD [])).2 = 0 <;>
    simp [mdiffOf, meanDiff, overlapCount, h]

/-- C1: under the stated preconditions (the target and every curator
have a row in the table, all rows of equal length), when at least one
curator overlaps the target on some item position,
`find_similar_curator` returns a curator with overlap whose mean
absolute rating difference is least, and every overlapping curator
listed strictly before it in `curator_ids` has a strictly larger mean
difference (so exact ties are won by the earliest curator in input
order). -/
theorem find_similar_curator_min_first
    (t : RatingsTable) (curator_ids : List Int) (cust_id : Int)
    (custRow : List (Option ℚ))
    (_hcust : t.rows cust_id = some custRow)
    (_hcur : ∀ c ∈ curator_ids, ∃ row, t.rows c = some row ∧ row.length = custRow.length)
    (hov : ∃ c ∈ curator_ids, 0 < overlapCount t cust_id c) :
    ∃ c d, find_similar_curator t curator_ids cust_id = some c
      ∧ c ∈ curator_ids
      ∧ 0 < overlapCount t cust_id c
      ∧ mdiffOf t cust_id c = some d
      ∧ (∀ c2 ∈ curator_ids, ∀ d2, mdiffOf t cust_id c2 = some d2 → d ≤ d2)
      ∧ ∃ pre post, curator_ids = pre ++ c :: post
          ∧ ∀ c2 ∈ pre, ∀ d2, mdiffOf t cust_id c2 = some d2 → d < d2 := by
  obtain ⟨c0, hc0, hov0⟩ := hov
  have hne : firstMinO (fun c => mdiffOf t cust_id c) curator_ids ≠ none := by
    intro hnone
    have := firstMinO_eq_none.mp hnone c0 hc0
    rw [mdiff_none_iff] at this
    omega
  rcases hfm : firstMinO (fun c => mdiffOf t cust_id c) curator_ids with _ | ⟨c, d⟩
  · exact absurd hfm hne
  obtain ⟨hmem, hfc, hmin, pre, post, hsplit, hstrict⟩ := firstMinO_some hfm
  refine ⟨c, d, ?_, hmem, ?_, hfc, hmin, pre, post, hsplit, hstrict⟩
  · rw [fsc_eq, hfm]; rfl
  · have : mdiffOf t cust_id c ≠ none := by rw [hfc]; simp
    rw [Ne, mdiff_none_iff] at this
    omega

/-- Witness for C1 at the spec example: curator `1` matches customer `5`
exactly, curator `2` differs by `3` on average, so `1` is returned. -/
theorem find_similar_curator_min_first_witness :
    tEx.rows 5 = some [some 5, some 3]
    ∧ (∀ c ∈ [(1 : Int), 2], ∃ row, tEx.rows c = some row ∧ row.length = 2)
    ∧ (∃ c ∈ [(1 : Int), 2], 0 < overlapCount tEx 5 c)
    ∧ ∃ c d, find_similar_curator tEx [1, 2] 5 = some c
        ∧ c ∈ [(1 : Int), 2]
        ∧ 0 < overlapCount tEx 5 c
        ∧ mdiffOf tEx 5 c = some d
        ∧ (∀ c2 ∈ [(1 : Int), 2], ∀ d2, mdiffOf tEx 5 c2 = some d2 → d ≤ d2)
        ∧ ∃ pre post, [(1 : Int), 2] = pre ++ c :: post
            ∧ ∀ c2 ∈ pre, ∀ d2, mdiffOf tEx 5 c2 = some d2 → d < d2 := by
  have hcur : ∀ c ∈ [(1 : Int), 2], ∃ row, tEx.rows c = some row ∧ row.length = 2 := by
    intro c hc
    fin_cases hc
    · exact ⟨[some 5, some 3], by decide, by decide⟩
    · exact ⟨[some 1, some 1], by decide, by decide⟩
  exact ⟨by decide, hcur, by decide,
    find_similar_curator_min_first tEx [1, 2] 5 [some 5, some 3] (by decide) hcur (by decide)⟩

/-- C2: under the stated preconditions, `find_similar_curator` returns
the `None` sentinel iff no curator in the list shares a rated item
position with the target, and any returned curator is a list member
with positive overlap — so a zero-overlap curator is never returned,
even when no curator overlaps at all. -/
theorem find_similar_curator_none_iff_no_overlap
    (t : RatingsTable) (curator_ids : List Int) (cust_id : Int)
    (custRow : List (Option ℚ))
    (_hcust : t.rows cust_id = some custRow)
    (_hcur : ∀ c ∈ curator_ids, ∃ row, t.rows c = some row ∧ row.length = custRow.length) :
    (find_similar_curator t curator_ids cust_id = none
        ↔ ∀ c ∈ curator_ids, overlapCount t cust_id c = 0)
    ∧ ∀ c, find_similar_curator t curator_ids cust_id = some c
        → c ∈ curator_ids ∧ 0 < overlapCount t cust_id c := by
  constructor
  · rw [fsc_eq, Option.map_eq_none', firstMinO_eq_none]
    constructor
    · intro h c hc
      exact (mdiff_none_iff t cust_id c).mp (h c hc)
    · intro h c hc
      exact (mdiff_none_iff t cust_id c).mpr (h c hc)
  · intro c hc
    rw [fsc_eq] at hc
    rcases hfm : firstMinO (fun c2 => mdiffOf t cust_id c2) curator_ids with _ | ⟨c1, d1⟩
    · rw [hfm] at hc; exact absurd hc (by simp)
    · rw [hfm] at hc
      simp only [Option.map_some', Option.some.injEq] at hc
      subst hc
      obtain ⟨hmem, hfc, _⟩ := firstMinO_some hfm
      refine ⟨hmem, ?_⟩
      have : mdiffOf t cust_id c1 ≠ none := by rw [hfc]; simp
      rw [Ne, mdiff_none_iff] at this
      omega

/-- Witness for C2: curator `3` has no overlapping rated item with
customer `5`, so the matcher returns the sentinel rather than `3`. -/
theorem find_similar_curator_none_iff_no_overlap_witness :
    tEx2.rows 5 = some [some 5, none]
    ∧ (∀ c ∈ [(3 : Int)], ∃ row, tEx2.rows c = some row ∧ row.length = 2)
    ∧ ((find_similar_curator tEx2 [3] 5 = none ↔ ∀ c ∈ [(3 : Int)], overlapCount tEx2 5 c = 0)
        ∧ ∀ c, find_similar_curator tEx2 [3] 5 = some c
            → c ∈ [(3 : Int)] ∧ 0 < overlapCount tEx2 5 c) := by
  have hcur : ∀ c ∈ [(3 : Int)], ∃ row, tEx2.rows c = some row ∧ row.length = 2 := by
    intro c hc
    fin_cases hc
    exact ⟨[none, some 2], by decide, by decide⟩
  exact ⟨by decide, hcur,
    find_similar_curator_none_iff_no_overlap tEx2 [3] 5 [some 5, none] (by decide) hcur⟩

/-! ## Top-K selection with tie-break (the shared policy) -/

theorem listMin?_eq_none : ∀ {l : List ℚ}, listMin? l = none ↔ l = [] := by
  intro l
  cases l with
  | nil => simp [listMin?]
  | cons x xs =>
    simp only [listMin?]
    cases listMin? xs <;> simp

theorem listMin?_le : ∀ {l : List ℚ} {m : ℚ}, listMin? l = some m → ∀ x ∈ l, m ≤ x := by
  intro l
  induction l with
  | nil => simp [listMin?]
  | cons x xs ih =>
    intro m hm y hy
    rcases hxs : listMin? xs with _ | m0 <;> rw [listMin?, hxs] at hm <;>
      simp only [Option.some.injEq] at hm <;> subst hm
    · rcases List.mem_cons.mp hy with h | h
      · exact le_of_eq h.symm
      · rw [listMin?_eq_none.mp hxs] at h
        exact absurd h (by simp)
    · rcases List.mem_cons.mp hy with h | h
      · exact h ▸ min_le_left _ _
      · exact le_trans (min_le_right _ _) (ih hxs y h)

/-- In the `n ≤ k` branch, `LIMIT k` returns exactly the rows whose
score reaches the boundary `min_a`. -/
theorem take_eq_filter_qual (k : ℕ) (cands : List (Int × ℚ))
    (h : countGeA cands (listMin? ((cands.take k).map (fun p => p.2))) ≤ k) :
    cands.take k = cands.filter (qualA (listMin? ((cands.take k).map (fun p => p.2)))) := by
  rcases hm : listMin? ((cands.take k).map (fun p => p.2)) with _ | m
  · have htake : cands.take k = [] := List.map_eq_nil_iff.mp (listMin?_eq_none.mp hm)
    rw [hm, htake]
    symm
    rw [List.filter_eq_nil_iff]
    intro p _
    simp [qualA]
  · rw [hm] at h ⊢
    have hmle : ∀ p ∈ cands.take k, m ≤ p.2 := fun p hp =>
      listMin?_le hm p.2 (List.mem_map_of_mem _ hp)
    have htake : (cands.take k).filter (qualA (some m)) = cands.take k := by
      rw [List.filter_eq_self]
      intro p hp
      simp [qualA, hmle p hp]
    by_cases hlen : cands.length ≤ k
    · rw [List.take_of_length_le hlen] at hmle ⊢
      symm
      rw [List.filter_eq_self]
      intro p hp
      simp [qualA, hmle p hp]
    · have hsplit : cands.take k ++ cands.drop k = cands := List.take_append_drop k cands
      rw [countGeA] at h
      have hfsplit : cands.filter (qualA (some m))
          = (cands.take k).filter (qualA (some m)) ++ (cands.drop k).filter (qualA (some m)) := by
        rw [← List.filter_append, hsplit]
      have hlentake : ((cands.take k).filter (qualA (some m))).length = k := by
        rw [htake, List.length_take]
        omega
      have hdrop : ((cands.drop k).filter (qualA (some m))).length = 0 := by
        have := congrArg List.length hfsplit
        rw [List.length_append, hlentake] at this
        omega
      rw [hfsplit, htake, List.length_eq_zero.mp hdrop, List.append_nil]

/-- The generic call site's selection, split by the boundary count: the
qualifying rows when `n ≤ k`, the first `k` of the `(score DESC, IID
ASC)` re-sort otherwise. -/
theorem topkGeneric_eq_cases (k : ℕ) (cands : List (Int × ℚ)) :
    topkGeneric k cands =
      (if countGeA cands (listMin? ((cands.take k).map (fun p => p.2))) ≤ k
       then (cands.filter (qualA (listMin? ((cands.take k).map (fun p => p.2))))).map
         (fun p => p.1)
       else ((List.insertionSort avgIdR cands).take k).map (fun p => p.1)) := by
  by_cases h : countGeA cands (listMin? ((cands.take k).map (fun p => p.2))) ≤ k
  · simp only [topkGeneric, if_pos h]
    exact congrArg (List.map (fun p => p.1)) (take_eq_filter_qual k cands h)
  · simp only [topkGeneric, if_neg h]

/-- C3: the Top-K boundary tie-break is the same policy at both call
sites.  The two independent transliterations (`topkGeneric`, lines
115-133, and `topkRecommendSel`, lines 230-242) agree on every input;
when the boundary count exceeds `k` the result is the first `k` of the
`(score DESC, item ID ASC)` re-sort (a sorted permutation of the
candidates), and when it is at most `k` the result is exactly the
qualifying entries. -/
theorem topk_policy_same_both_sites (k : ℕ) (cands : List (Int × ℚ)) :
    topkGeneric k cands = topkRecommendSel k cands
    ∧ topkRecommendSel k cands =
        (if countGeB cands (listMin? ((cands.take k).map (fun p => p.2))) ≤ k
         then (cands.filter (qualB (listMin? ((cands.take k).map (fun p => p.2))))).map
           (fun p => p.1)
         else ((List.insertionSort ratingIdR cands).take k).map (fun p => p.1))
    ∧ List.Sorted ratingIdR (List.insertionSort ratingIdR cands)
    ∧ List.Perm (List.insertionSort ratingIdR cands) cands :=
  ⟨rfl, topkGeneric_eq_cases k cands, List.sorted_insertionSort _ _,
    List.perm_insertionSort _ _⟩

/-! ## Lengths of the returned lists -/

theorem topkGeneric_length (k : ℕ) (ra : List (Int × ℚ)) :
    (topkGeneric k ra).length = min k ra.length := by
  simp only [topkGeneric]
  split_ifs with h
  · rw [List.length_map, List.length_take]
  · rw [List.length_map, List.length_take, List.length_insertionSort]

theorem topkRecommendSel_length (k : ℕ) (il : List (Int × ℚ)) :
    (topkRecommendSel k il).length = min k il.length :=
  topkGeneric_length k il

theorem genericPure_length (db : DB) (k : ℕ) :
    (recommend_genericPure db k).length = min k (genericPool db k) := by
  by_cases h : db.popularItems.length ≤ k
  · simp only [recommend_genericPure, genericPool, if_pos h]
    exact (min_eq_right h).symm
  · simp [recommend_genericPure, genericPool, h, cursorEqEmptyList,
      topkGeneric_length k (ratingAverageRows db)]

theorem topkRecommendSel_eq_nil_iff (k : ℕ) (il : List (Int × ℚ)) (hk : 0 < k) :
    topkRecommendSel k il = [] ↔ il = [] := by
  constructor
  · intro h
    have := congrArg List.length h
    rw [topkRecommendSel_length] at this
    simp only [List.length_nil] at this
    have : il.length = 0 := by omega
    exact List.length_eq_zero.mp this
  · intro h
    subst h
    simp [topkRecommendSel, listMin?, countGeB]

theorem recommendPure_length (db : DB) (cust : Int) (k : ℕ) :
    (recommendPure db cust k).length = min k (recommendPool db cust k) := by
  simp only [recommendPure, recommendPool]
  split_ifs with h
  · exact genericPure_length db k
  · exact topkRecommendSel_length k (itemLeftRows db cust)

/-- C7: for `k > 0`, `recommend` returns exactly
`recommend_generic(k)`'s result when no similar curator was found or
the curator's rated-and-unpurchased item set (`itemLeft`, after
excluding the customer's purchases) is empty, and otherwise returns the
Top-K selection over `itemLeft` (not the generic path). -/
theorem recommend_fallback_iff (db : DB) (cust : Int) (k : ℕ) (hk : 0 < k) :
    recommendPure db cust k =
      (if curatorOf db cust = none ∨ itemLeftRows db cust = []
       then recommend_genericPure db k
       else topkRecommendSel k (itemLeftRows db cust)) := by
  have hiff : (curatorOf db cust = none
      ∨ (topkRecommendSel k (itemLeftRows db cust)).length = 0)
      ↔ (curatorOf db cust = none ∨ itemLeftRows db cust = []) := by
    rw [List.length_eq_zero, topkRecommendSel_eq_nil_iff _ _ hk]
  simp only [recommendPure]
  by_cases h : curatorOf db cust = none ∨ itemLeftRows db cust = []
  · rw [if_pos (hiff.mpr h), if_pos h]
  · rw [if_neg (fun hc => h (hiff.mp hc)), if_neg h]

/-! ## Relating the effectful runs to the pure results -/

theorem seq_ok {β : Type} {m : M Unit} {f : Unit → M β} {s s1 : ExecSt} {b : β}
    (h : bindM m f s = (Except.ok b, s1)) : ∃ s2, f () s2 = (Except.ok b, s1) := by
  unfold bindM at h
  rcases hm : m s with ⟨e, s2⟩
  rw [hm] at h
  cases e with
  | ok a => exact ⟨s2, h⟩
  | error e => simp at h

theorem pure_ok {α : Type} {v b : α} {s s1 : ExecSt} (h : pureM v s = (Except.ok b, s1)) :
    b = v := by
  unfold pureM at h
  simp only [Prod.mk.injEq, Except.ok.injEq] at h
  exact h.1.symm

theorem callGenericE_ok {db : DB} {k : ℕ} {s s1 : ExecSt} {v : Option (List Int)}
    (h : callGenericE db k s = (Except.ok v, s1)) : v = (recommend_genericE db k s).1 := by
  unfold callGenericE at h
  simp only [Prod.mk.injEq, Except.ok.injEq] at h
  exact h.1.symm

theorem genericBody_ok {db : DB} {k : ℕ} {s s1 : ExecSt} {l : List Int}
    (h : recommend_genericBody db k s = (Except.ok l, s1)) :
    l = recommend_genericPure db k := by
  simp only [recommend_genericBody, bind_eqM, pure_eqM] at h
  obtain ⟨s2, h⟩ := seq_ok h
  try simp only [] at h
  by_cases hc : db.popularItems.length ≤ k
  · rw [if_pos hc] at h
    obtain ⟨s3, h⟩ := seq_ok h
    try simp only [] at h
    obtain ⟨s4, h⟩ := seq_ok h
    try simp only [] at h
    rw [pure_ok h]
    simp [recommend_genericPure, hc]
  · rw [if_neg hc] at h
    obtain ⟨s3, h⟩ := seq_ok h
    try simp only [] at h
    obtain ⟨s4, h⟩ := seq_ok h
    simp only [cursorEqEmptyList, Bool.false_eq_true, if_false] at h
    obtain ⟨s5, h⟩ := seq_ok h
    try simp only [] at h
    obtain ⟨s6, h⟩ := seq_ok h
    try simp only [] at h
    obtain ⟨s7, h⟩ := seq_ok h
    try simp only [] at h
    obtain ⟨s8, h⟩ := seq_ok h
    try simp only [] at h
    rw [pure_ok h]
    simp [recommend_genericPure, hc, cursorEqEmptyList]

theorem genericE_some {db : DB} {k : ℕ} {s : ExecSt} {l : List Int}
    (h : (recommend_genericE db k s).1 = some l) : l = recommend_genericPure db k := by
  unfold recommend_genericE at h
  rcases hb : recommend_genericBody db k s with ⟨e, s1⟩
  rw [hb] at h
  cases e with
  | ok a =>
    simp only [Option.some.injEq] at h
    rw [← h]
    exact genericBody_ok hb
  | error e => simp at h

theorem recommendBody_ok {db : DB} {cust : Int} {k : ℕ} {s s1 : ExecSt}
    {v : Option (List Int)}
    (h : recommendBody db cust k s = (Except.ok v, s1)) :
    ∀ l, v = some l → l = recommendPure db cust k := by
  simp only [recommendBody, bind_eqM, pure_eqM] at h
  obtain ⟨s2, h⟩ := seq_ok h
  try simp only [] at h
  obtain ⟨s3, h⟩ := seq_ok h
  try simp only [] at h
  obtain ⟨s4, h⟩ := seq_ok h
  simp only [cursorIsNone, Bool.false_eq_true, if_false] at h
  obtain ⟨s5, h⟩ := seq_ok h
  try simp only [] at h
  obtain ⟨s6, h⟩ := seq_ok h
  try simp only [] at h
  obtain ⟨s7, h⟩ := seq_ok h
  try simp only [] at h
  obtain ⟨s8, h⟩ := seq_ok h
  try simp only [] at h
  obtain ⟨s9, h⟩ := seq_ok h
  try simp only [] at h
  obtain ⟨s10, h⟩ := seq_ok h
  try simp only [] at h
  obtain ⟨s11, h⟩ := seq_ok h
  try simp only [] at h
  obtain ⟨s12, h⟩ := seq_ok h
  try simp only [] at h
  by_cases hc : curatorOf db cust = none
      ∨ (topkRecommendSel k (itemLeftRows db cust)).length = 0
  · rw [if_pos hc] at h
    obtain ⟨s13, h⟩ := seq_ok h
    try simp only [] at h
    obtain ⟨s14, h⟩ := seq_ok h
    try simp only [] at h
    obtain ⟨s15, h⟩ := seq_ok h
    try simp only [] at h
    obtain ⟨s16, h⟩ := seq_ok h
    try simp only [] at h
    intro l hl
    rw [callGenericE_ok h] at hl
    rw [genericE_some hl]
    simp only [recommendPure]
    rw [if_pos hc]
  · rw [if_neg hc] at h
    obtain ⟨s13, h⟩ := seq_ok h
    try simp only [] at h
    obtain ⟨s14, h⟩ := seq_ok h
    try simp only [] at h
    obtain ⟨s15, h⟩ := seq_ok h
    try simp only [] at h
    obtain ⟨s16, h⟩ := seq_ok h
    try simp only [] at h
    obtain ⟨s17, h⟩ := seq_ok h
    try simp only [] at h
    intro l hl
    rw [pure_ok h] at hl
    simp only [Option.some.injEq] at hl
    rw [← hl]
    simp only [recommendPure]
    rw [if_neg hc]

theorem recommendE_some {db : DB} {cust : Int} {k : ℕ} {s : ExecSt} {l : List Int}
    (h : (recommendE db cust k s).1 = some l) : l = recommendPure db cust k := by
  unfold recommendE at h
  rcases hb : recommendBody db cust k s with ⟨e, s1⟩
  rw [hb] at h
  cases e with
  | ok a => exact recommendBody_ok hb l h
  | error e => simp at h

/-- C4: for `k > 0`, whenever `recommend_generic` or `recommend`
returns a list (not the `None` sentinel), that list has at most `k`
elements, and its length is exactly `min k` (size of the candidate
pool), so it is shorter than `k` only when the pool itself has fewer
than `k` entries. -/
theorem recommend_results_length (db : DB) (cust : Int) (k : ℕ) (s s2 : ExecSt)
    (l l2 : List Int) (_hk : 0 < k)
    (h1 : (recommend_genericE db k s).1 = some l)
    (h2 : (recommendE db cust k s2).1 = some l2) :
    l.length ≤ k ∧ l2.length ≤ k
    ∧ l.length = min k (genericPool db k)
    ∧ l2.length = min k (recommendPool db cust k) := by
  have e1 := genericE_some h1
  have e2 := recommendE_some h2
  subst e1
  subst e2
  rw [genericPure_length, recommendPure_length]
  exact ⟨min_le_left _ _, min_le_left _ _, rfl, rfl⟩

/-- Witness for C4 on a one-item store: both entry points return `[10]`
of length `min 1 1 = 1`. -/
theorem recommend_results_length_witness :
    0 < 1
    ∧ (recommend_genericE dbSmall 1 noFailSt).1 = some [10]
    ∧ (recommendE dbSmall 0 1 noFailSt).1 = some [10]
    ∧ ([(10 : Int)].length ≤ 1 ∧ [(10 : Int)].length ≤ 1
        ∧ [(10 : Int)].length = min 1 (genericPool dbSmall 1)
        ∧ [(10 : Int)].length = min 1 (recommendPool dbSmall 0 1)) :=
  ⟨by decide, by decide, by decide,
    recommend_results_length dbSmall 0 1 noFailSt noFailSt [10] [10] (by decide) (by decide)
      (by decide)⟩

/-- C8: a data-source failure inside either entry point is turned into
the `None` sentinel by the `try/except pg.Error` wrapper and never
escapes: `recommend_generic` yields `None` exactly when its body
raised, a raised body of `recommend` yields `None`, any non-`None`
result is the pure algorithm's value, and the sentinel is
distinguishable from a legitimate empty list. -/
theorem db_failure_yields_none :
    (∀ (db : DB) (k : ℕ) (s : ExecSt),
        (recommend_genericE db k s).1 = none
          ↔ ∃ s1, recommend_genericBody db k s = (Except.error (), s1))
    ∧ (∀ (db : DB) (cust : Int) (k : ℕ) (s s1 : ExecSt),
        recommendBody db cust k s = (Except.error (), s1)
          → (recommendE db cust k s).1 = none)
    ∧ (∀ (db : DB) (cust : Int) (k : ℕ) (s : ExecSt) (l : List Int),
        (recommendE db cust k s).1 = some l → l = recommendPure db cust k)
    ∧ (none : Option (List Int)) ≠ some [] := by
  refine ⟨?_, ?_, fun db cust k s l h => recommendE_some h, by simp⟩
  · intro db k s
    unfold recommend_genericE
    rcases hb : recommend_genericBody db k s with ⟨e, s1⟩
    cases e with
    | ok a =>
      simp only []
      constructor
      · intro h
        exact absurd h (by simp)
      · rintro ⟨s2, hb2⟩
        exact absurd hb2 (by simp)
    | error e =>
      cases e
      simp only []
      constructor
      · intro _
        exact ⟨s1, rfl⟩
      · intro _
        trivial
  · intro db cust k s s1 h
    unfold recommendE
    rw [h]

/-- Every `cur.execute` leaves the committed state untouched: only a
`commit` would publish work, and these bodies contain none. -/
theorem presM_execQ (eff : ViewSet → ViewSet) : PresM (execQ eff) := by
  intro s
  unfold execQ
  split_ifs <;> rfl

theorem presM_pure {α : Type} (a : α) : PresM (pureM a) := fun _ => rfl

theorem presM_bindM {α β : Type} {m : M α} {f : α → M β}
    (hm : PresM m) (hf : ∀ a, PresM (f a)) : PresM (bindM m f) := by
  intro s
  unfold bindM
  rcases hx : m s with ⟨e, s1⟩
  have hs1 : s1.committed = s.committed := by
    have := hm s
    rw [hx] at this
    exact this
  cases e with
  | ok a => rw [hf a s1, hs1]
  | error e => exact hs1

theorem presM_ite {α : Type} {c : Prop} [Decidable c] {m1 m2 : M α}
    (h1 : PresM m1) (h2 : PresM m2) : PresM (if c then m1 else m2) := by
  split_ifs <;> assumption

theorem genericBody_pres (db : DB) (k : ℕ) : PresM (recommend_genericBody db k) := by
  simp only [recommend_genericBody, bind_eqM, pure_eqM]
  repeat'
    first
      | exact presM_pure _
      | apply presM_ite
      | refine presM_bindM (presM_execQ _) fun _ => ?_

/-- No run of `recommend_generic` — successful or raising — changes the
state observable by later requests. -/
theorem genericE_committed (db : DB) (k : ℕ) (s : ExecSt) :
    ((recommend_genericE db k s).2).committed = s.committed := by
  unfold recommend_genericE
  rcases hb : recommend_genericBody db k s with ⟨e, s1⟩
  have hs1 : s1.committed = s.committed := by
    have := genericBody_pres db k s
    rw [hb] at this
    exact this
  cases e <;> exact hs1

theorem presM_callGenericE (db : DB) (k : ℕ) : PresM (callGenericE db k) := by
  intro s
  exact genericE_committed db k s

theorem recommendBody_pres (db : DB) (cust : Int) (k : ℕ) : PresM (recommendBody db cust k) := by
  simp only [recommendBody, bind_eqM, pure_eqM]
  repeat'
    first
      | exact presM_pure _
      | exact presM_callGenericE db k
      | apply presM_ite
      | refine presM_bindM (presM_execQ _) fun _ => ?_

/-- No run of `recommend` — successful or raising — changes the state
observable by later requests. -/
theorem recommendE_committed (db : DB) (cust : Int) (k : ℕ) (s : ExecSt) :
    ((recommendE db cust k s).2).committed = s.committed := by
  unfold recommendE
  rcases hb : recommendBody db cust k s with ⟨e, s1⟩
  have hs1 : s1.committed = s.committed := by
    have := recommendBody_pres db cust k s
    rw [hb] at this
    exact this
  cases e <;> exact hs1

/-- Counterexample to C9 as stated: on `dbSmall` with a failure at the
query right after `CREATE VIEW custRating`, `recommend` returns the
`None` sentinel and the view is still present in the open transaction's
session state — yet the state observable by later requests equals the
pre-call one, because nothing was ever committed: the claim's "NOT
restored" conclusion is false. -/
theorem error_path_views_not_observable_cex :
    (recommendE dbSmall 0 1 ⟨vAllFalse, vAllFalse, 0, fun n => n == 2⟩).1 = none
    ∧ ((recommendE dbSmall 0 1 ⟨vAllFalse, vAllFalse, 0, fun n => n == 2⟩).2).views.custRating
        = true
    ∧ laterObservedViews
        ((recommendE dbSmall 0 1 ⟨vAllFalse, vAllFalse, 0, fun n => n == 2⟩).2)
        = laterObservedViews ⟨vAllFalse, vAllFalse, 0, fun n => n == 2⟩ := by decide

/-- C9, corrected: if a database error occurs in `recommend` at any
query index `j` of the straight-line prefix after `CREATE VIEW
custRating` (indices 2-10; `custRating` is created by query 1,
`custIID` by query 5, `itemLeft` by query 6 and `result` by query 9, so
every view-creation point is covered), the method returns the `None`
sentinel and the error path drops none of the views already created:
each one is still present in the open transaction's session state.
Likewise in `recommend_generic` (large-pool branch) for any failure
index after `CREATE VIEW ratingAverage` and up to the failing `DROP`.
However, neither method ever commits, so the state observable by later
requests — the committed component — is never changed by any run of
either method: the uncommitted views vanish with the rolled-back
transaction, and the pre-call state is restored towards other requests
by the transaction, not by the code. -/
theorem error_path_views_transactional (db db2 : DB) (cust : Int) (k k2 j j2 : ℕ)
    (c v c2 v2 : ViewSet)
    (hj1 : 2 ≤ j) (hj2 : j ≤ 10) (hg1 : 2 ≤ j2) (hg2 : j2 ≤ 6)
    (hpop : k2 < db2.popularItems.length) :
    (recommendE db cust k ⟨c, v, 0, fun n => n == j⟩).1 = none
    ∧ ((recommendE db cust k ⟨c, v, 0, fun n => n == j⟩).2).views.custRating = true
    ∧ (6 ≤ j → ((recommendE db cust k ⟨c, v, 0, fun n => n == j⟩).2).views.custIID = true)
    ∧ (7 ≤ j → ((recommendE db cust k ⟨c, v, 0, fun n => n == j⟩).2).views.itemLeft = true)
    ∧ (10 ≤ j → ((recommendE db cust k ⟨c, v, 0, fun n => n == j⟩).2).views.result = true)
    ∧ laterObservedViews ((recommendE db cust k ⟨c, v, 0, fun n => n == j⟩).2) = c
    ∧ (recommend_genericE db2 k2 ⟨c2, v2, 0, fun n => n == j2⟩).1 = none
    ∧ ((recommend_genericE db2 k2 ⟨c2, v2, 0, fun n => n == j2⟩).2).views.ratingAverage = true
    ∧ laterObservedViews ((recommend_genericE db2 k2 ⟨c2, v2, 0, fun n => n == j2⟩).2) = c2
    ∧ (∀ (db3 : DB) (cust3 : Int) (k3 : ℕ) (s3 : ExecSt),
        ((recommendE db3 cust3 k3 s3).2).committed = s3.committed)
    ∧ (∀ (db3 : DB) (k3 : ℕ) (s3 : ExecSt),
        ((recommend_genericE db3 k3 s3).2).committed = s3.committed) := by
  have hrec : (recommendE db cust k ⟨c, v, 0, fun n => n == j⟩).1 = none
      ∧ ((recommendE db cust k ⟨c, v, 0, fun n => n == j⟩).2).views.custRating = true
      ∧ (6 ≤ j → ((recommendE db cust k ⟨c, v, 0, fun n => n == j⟩).2).views.custIID = true)
      ∧ (7 ≤ j → ((recommendE db cust k ⟨c, v, 0, fun n => n == j⟩).2).views.itemLeft = true)
      ∧ (10 ≤ j → ((recommendE db cust k ⟨c, v, 0, fun n => n == j⟩).2).views.result = true)
      ∧ laterObservedViews ((recommendE db cust k ⟨c, v, 0, fun n => n == j⟩).2) = c := by
    interval_cases j <;>
      simp [recommendE, recommendBody, bindM, execQ, cursorIsNone, laterObservedViews]
  have hgen : (recommend_genericE db2 k2 ⟨c2, v2, 0, fun n => n == j2⟩).1 = none
      ∧ ((recommend_genericE db2 k2 ⟨c2, v2, 0, fun n => n == j2⟩).2).views.ratingAverage = true
      ∧ laterObservedViews ((recommend_genericE db2 k2 ⟨c2, v2, 0, fun n => n == j2⟩).2)
          = c2 := by
    interval_cases j2 <;>
      simp [recommend_genericE, recommend_genericBody, bindM, execQ, cursorEqEmptyList,
        laterObservedViews, not_le.mpr hpop]
  exact ⟨hrec.1, hrec.2.1, hrec.2.2.1, hrec.2.2.2.1, hrec.2.2.2.2.1, hrec.2.2.2.2.2,
    hgen.1, hgen.2.1, hgen.2.2,
    fun db3 cust3 k3 s3 => recommendE_committed db3 cust3 k3 s3,
    fun db3 k3 s3 => genericE_committed db3 k3 s3⟩

/-- Witness for the corrected C9: failure index 10 in `recommend` (all
four views already created) on the one-item store, and failure index 2
in `recommend_generic` on the two-item store with `k = 1`. -/
theorem error_path_views_transactional_witness :
    2 ≤ 10 ∧ (10 : ℕ) ≤ 10 ∧ 2 ≤ 2 ∧ (2 : ℕ) ≤ 6 ∧ 1 < dbPop2.popularItems.length
    ∧ ((recommendE dbSmall 0 1 ⟨vAllFalse, vAllFalse, 0, fun n => n == 10⟩).1 = none
      ∧ ((recommendE dbSmall 0 1
            ⟨vAllFalse, vAllFalse, 0, fun n => n == 10⟩).2).views.custRating = true
      ∧ (6 ≤ 10 → ((recommendE dbSmall 0 1
            ⟨vAllFalse, vAllFalse, 0, fun n => n == 10⟩).2).views.custIID = true)
      ∧ (7 ≤ 10 → ((recommendE dbSmall 0 1
            ⟨vAllFalse, vAllFalse, 0, fun n => n == 10⟩).2).views.itemLeft = true)
      ∧ (10 ≤ 10 → ((recommendE dbSmall 0 1
            ⟨vAllFalse, vAllFalse, 0, fun n => n == 10⟩).2).views.result = true)
      ∧ laterObservedViews ((recommendE dbSmall 0 1
            ⟨vAllFalse, vAllFalse, 0, fun n => n == 10⟩).2) = vAllFalse
      ∧ (recommend_genericE dbPop2 1 ⟨vAllFalse, vAllFalse, 0, fun n => n == 2⟩).1 = none
      ∧ ((recommend_genericE dbPop2 1
            ⟨vAllFalse, vAllFalse, 0, fun n => n == 2⟩).2).views.ratingAverage = true
      ∧ laterObservedViews ((recommend_genericE dbPop2 1
            ⟨vAllFalse, vAllFalse, 0, fun n => n == 2⟩).2) = vAllFalse
      ∧ (∀ (db3 : DB) (cust3 : Int) (k3 : ℕ) (s3 : ExecSt),
          ((recommendE db3 cust3 k3 s3).2).committed = s3.committed)
      ∧ (∀ (db3 : DB) (k3 : ℕ) (s3 : ExecSt),
          ((recommend_genericE db3 k3 s3).2).committed = s3.committed)) :=
  ⟨by decide, by decide, by decide, by decide, by decide,
    error_path_views_transactional dbSmall dbPop2 0 1 1 10 2 vAllFalse vAllFalse vAllFalse
      vAllFalse (by decide) (by decide) (by decide) (by decide) (by decide)⟩

theorem reviewsOn_dbC5 :
    reviewsOn dbC5 1 = [5, 1] ∧ reviewsOn dbC5 2 = [4] ∧ reviewsOn dbC5 3 = [3] := by
  refine ⟨?_, ?_, ?_⟩ <;> decide

theorem ratingAverageRows_dbC5 : ratingAverageRows dbC5 = [(2, 4), (1, 3), (3, 3)] := by
  have hm1 : ([(5 : ℚ), 1].sum / (([(5 : ℚ), 1].length : ℕ) : ℚ)) = 3 := by norm_num
  have hm2 : ([(4 : ℚ)].sum / (([(4 : ℚ)].length : ℕ) : ℚ)) = 4 := by norm_num
  have hm3 : ([(3 : ℚ)].sum / (([(3 : ℚ)].length : ℕ) : ℚ)) = 3 := by norm_num
  have hraw : dbC5.popularItems.filterMap (fun i =>
      let rs := reviewsOn dbC5 i
      if rs.isEmpty then none else some (i, rs.sum / (rs.length : ℚ)))
      = [(1, 3), (2, 4), (3, 3)] := by
    show [(1 : Int), 2, 3].filterMap _ = _
    simp only [List.filterMap_cons, List.filterMap_nil, reviewsOn_dbC5.1, reviewsOn_dbC5.2.1,
      reviewsOn_dbC5.2.2, hm1, hm2, hm3, List.isEmpty_cons, Bool.false_eq_true, if_false]
  rw [ratingAverageRows, hraw]
  norm_num [List.insertionSort, List.orderedInsert, scoreDescR]

theorem curatorMeanRows_dbC5 : curatorMeanRows dbC5 = [(1, 5), (2, 4), (3, 3)] := by
  have hd1 : dbC5.definitiveRatings.filterMap
      (fun r => if r.2.1 = 1 then some r.2.2 else none) = [5] := by decide
  have hd2 : dbC5.definitiveRatings.filterMap
      (fun r => if r.2.1 = 2 then some r.2.2 else none) = [4] := by decide
  have hd3 : dbC5.definitiveRatings.filterMap
      (fun r => if r.2.1 = 3 then some r.2.2 else none) = [3] := by decide
  have hm1 : ([(5 : ℚ)].sum / (([(5 : ℚ)].length : ℕ) : ℚ)) = 5 := by norm_num
  have hm2 : ([(4 : ℚ)].sum / (([(4 : ℚ)].length : ℕ) : ℚ)) = 4 := by norm_num
  have hm3 : ([(3 : ℚ)].sum / (([(3 : ℚ)].length : ℕ) : ℚ)) = 3 := by norm_num
  have hraw : dbC5.popularItems.filterMap (fun i =>
      let rs := dbC5.definitiveRatings.filterMap
        (fun r => if r.2.1 = i then some r.2.2 else none)
      if rs.isEmpty then none else some (i, rs.sum / (rs.length : ℚ)))
      = [(1, 5), (2, 4), (3, 3)] := by
    show [(1 : Int), 2, 3].filterMap _ = _
    simp only [List.filterMap_cons, List.filterMap_nil, hd1, hd2, hd3, hm1, hm2, hm3,
      List.isEmpty_cons, Bool.false_eq_true, if_false]
  rw [curatorMeanRows, hraw]
  norm_num [List.insertionSort, List.orderedInsert, scoreDescR]

theorem topkGeneric_dbC5_code :
    topkGeneric 2 [((2 : Int), (4 : ℚ)), (1, 3), (3, 3)] = [2, 1] := by
  norm_num [topkGeneric, listMin?, countGeA, qualA, min_def, decide_eq_true_eq,
    List.filter_cons, List.insertionSort, List.orderedInsert, avgIdR]

theorem topkGeneric_dbC5_spec :
    topkGeneric 2 [((1 : Int), (5 : ℚ)), (2, 4), (3, 3)] = [1, 2] := by
  norm_num [topkGeneric, listMin?, countGeA, qualA, min_def, decide_eq_true_eq,
    List.filter_cons, List.insertionSort, List.orderedInsert, avgIdR]

/-- Counterexample to C5 as stated: with more popular items than `k`,
the code ranks by the mean over ALL `Review` rows (any customer), not
over curator ratings; on `dbC5` with `k = 2` the code returns `[2, 1]`
while the curator-mean ranking of the claim returns `[1, 2]`. -/
theorem generic_mean_not_curator_only_cex :
    2 < dbC5.popularItems.length
    ∧ recommend_genericPure dbC5 2 = [2, 1]
    ∧ specGenericTopK dbC5 2 = [1, 2]
    ∧ recommend_genericPure dbC5 2 ≠ specGenericTopK dbC5 2 := by
  have hcode : recommend_genericPure dbC5 2 = [2, 1] := by
    have hlen : ¬(dbC5.popularItems.length ≤ 2) := by decide
    simp only [recommend_genericPure, if_neg hlen, cursorEqEmptyList, Bool.false_eq_true,
      if_false, ratingAverageRows_dbC5, topkGeneric_dbC5_code]
  have hspec : specGenericTopK dbC5 2 = [1, 2] := by
    rw [specGenericTopK, curatorMeanRows_dbC5, topkGeneric_dbC5_spec]
  refine ⟨by decide, hcode, hspec, ?_⟩
  rw [hcode, hspec]
  simp

/-- C5 amended: when the Popular Item set has more than `k` members,
`recommend_generic` ranks popular items by mean rating taken over all
customer `Review` rows on the item (not curator ratings only), items
with no review are excluded from the ranking rather than scored `0`,
the ranking is sorted by mean descending, and the Top-K policy with
item ID ascending tie-break is applied to it. -/
theorem generic_ranks_by_all_review_means (db : DB) (k : ℕ)
    (hk : k < db.popularItems.length) :
    recommend_genericPure db k = topkGeneric k (ratingAverageRows db)
    ∧ (∀ p ∈ ratingAverageRows db,
        p.1 ∈ db.popularItems ∧ reviewsOn db p.1 ≠ []
          ∧ p.2 = (reviewsOn db p.1).sum / ((reviewsOn db p.1).length : ℚ))
    ∧ (∀ i ∈ db.popularItems, reviewsOn db i ≠ []
        → i ∈ (ratingAverageRows db).map (fun p => p.1))
    ∧ List.Sorted scoreDescR (ratingAverageRows db) := by
  refine ⟨by simp [recommend_genericPure, not_le.mpr hk, cursorEqEmptyList], ?_, ?_,
    List.sorted_insertionSort _ _⟩
  · intro p hp
    rw [ratingAverageRows, List.mem_insertionSort] at hp
    obtain ⟨i, hi, hf⟩ := List.mem_filterMap.mp hp
    cases hemp : (reviewsOn db i).isEmpty with
    | true => simp [hemp] at hf
    | false =>
      simp only [hemp, Bool.false_eq_true, if_false, Option.some.injEq] at hf
      subst hf
      refine ⟨hi, ?_, rfl⟩
      intro hnil
      rw [hnil] at hemp
      simp at hemp
  · intro i hi hne
    rw [ratingAverageRows]
    have hemp : (reviewsOn db i).isEmpty = false := by
      cases hrv : reviewsOn db i
      · exact absurd hrv hne
      · rfl
    refine List.mem_map.mpr ⟨(i, (reviewsOn db i).sum / ((reviewsOn db i).length : ℚ)), ?_, rfl⟩
    rw [List.mem_insertionSort]
    exact List.mem_filterMap.mpr ⟨i, hi, by simp [hemp]⟩

/-- Witness for the amended C5 on `dbC5` with `k = 2`. -/
theorem generic_ranks_by_all_review_means_witness :
    2 < dbC5.popularItems.length
    ∧ (recommend_genericPure dbC5 2 = topkGeneric 2 (ratingAverageRows dbC5)
        ∧ (∀ p ∈ ratingAverageRows dbC5,
            p.1 ∈ dbC5.popularItems ∧ reviewsOn dbC5 p.1 ≠ []
              ∧ p.2 = (reviewsOn dbC5 p.1).sum / ((reviewsOn dbC5 p.1).length : ℚ))
        ∧ (∀ i ∈ dbC5.popularItems, reviewsOn dbC5 i ≠ []
            → i ∈ (ratingAverageRows dbC5).map (fun p => p.1))
        ∧ List.Sorted scoreDescR (ratingAverageRows dbC5)) :=
  ⟨by decide, generic_ranks_by_all_review_means dbC5 2 (by decide)⟩

/-- Counterexample to C6 as stated: `dbSmall` has one popular item with
no rating at all and `k = 1 ≥` pool size, yet `recommend_generic`
returns the whole pool `[10]`, not the empty list. -/
theorem generic_small_pool_returns_unrated_cex :
    (∀ i ∈ dbSmall.popularItems, reviewsOn dbSmall i = [])
    ∧ 0 < 1
    ∧ recommend_genericPure dbSmall 1 = [10]
    ∧ recommend_genericPure dbSmall 1 ≠ [] := by decide

/-- C6 amended: when no Popular Item has any rating,
`recommend_generic` returns the empty list only on the large-pool
branch (more popular items than `k`); with at most `k` popular items it
returns the whole `PopularItems` list regardless of ratings. -/
theorem generic_empty_only_large_pool (db : DB) (k : ℕ)
    (hnr : ∀ i ∈ db.popularItems, reviewsOn db i = []) :
    recommend_genericPure db k
      = (if db.popularItems.length ≤ k then db.popularItems else []) := by
  by_cases hk : db.popularItems.length ≤ k
  · simp [recommend_genericPure, hk]
  · have hraw : db.popularItems.filterMap (fun i =>
        let rs := reviewsOn db i
        if rs.isEmpty then none else some (i, rs.sum / (rs.length : ℚ))) = [] := by
      rw [List.filterMap_eq_nil_iff]
      intro i hi
      simp [hnr i hi]
    have hra : ratingAverageRows db = [] := by
      rw [ratingAverageRows, hraw]
      rfl
    have htop : topkGeneric k ([] : List (Int × ℚ)) = [] := by
      simp [topkGeneric, listMin?, countGeA]
    simp [recommend_genericPure, hk, cursorEqEmptyList, hra, htop]

/-- Witness for the amended C6: two unrated popular items and `k = 1`
yield the empty list. -/
theorem generic_empty_only_large_pool_witness :
    (∀ i ∈ dbPop2.popularItems, reviewsOn dbPop2 i = [])
    ∧ recommend_genericPure dbPop2 1
        = (if dbPop2.popularItems.length ≤ 1 then dbPop2.popularItems else []) :=
  ⟨by decide, generic_empty_only_large_pool dbPop2 1 (by decide)⟩

/-- Counterexample to C10 as stated: a `repopulate` run SUCCEEDS
precisely when the constraint is still present (`dbC10`), and once the
run has dropped it, an immediately repeated run FAILS with `-1`
(dropping a non-existent constraint raises) — so a second successful
run does not merely require the constraint to be gone; it is impossible
until the constraint is re-created externally. -/
theorem repopulate_second_run_fails_cex :
    dbC10.cidFkey = true
    ∧ (repopulate dbC10).1 = 0
    ∧ (repopulate dbC10).2.cidFkey = false
    ∧ (repopulate ((repopulate dbC10).2)).1 = -1 := by decide

/-- C10 amended: a `repopulate` run succeeds iff the
`definitiveratings_cid_fkey` constraint exists; after any run the
constraint is gone and never restored, so the immediately repeated run
returns `-1` and leaves the store unchanged. -/
theorem repopulate_drops_fkey (db : DB) :
    ((repopulate db).1 = 0 ↔ db.cidFkey = true)
    ∧ (repopulate db).2.cidFkey = false
    ∧ (repopulate ((repopulate db).2)).1 = -1
    ∧ (repopulate ((repopulate db).2)).2 = (repopulate db).2 := by
  cases hc : db.cidFkey
  · simp [repopulate, hc]
  · simp [repopulate, hc]

/-- Witness for C7 on the one-item store: no curator exists, so the
fallback condition holds and `recommend` returns the generic result. -/
theorem recommend_fallback_iff_witness :
    0 < 1
    ∧ recommendPure dbSmall 0 1 =
        (if curatorOf dbSmall 0 = none ∨ itemLeftRows dbSmall 0 = []
         then recommend_genericPure dbSmall 1
         else topkRecommendSel 1 (itemLeftRows dbSmall 0)) :=
  ⟨by decide, recommend_fallback_iff dbSmall 0 1 (by decide)⟩
